import Mathlib

/-!
Verification of the stock-take application's core logic, shallowly embedded
from the TypeScript source.

The embedding covers, from the stock-take-sheets screen
(`src/unnamed/part_001`): the `StockItem` data model, the modal count-edit
protocol (`openCountModal`, `saveCount`, cancel), location/sheet expansion
toggles, and the `groupedItems` location grouping; and from the
sheet-creation screen (`src/create-stock-sheet.tsx`): `validateForm`,
`generateCalendarDays`, and `handleDateSelect`.

JavaScript numbers that can become `NaN` are modelled by `JSNum`
(`nan` or an exact integer); dates with time-of-day stripped are modelled
by civil triples `CDate` together with an epoch-day count `dfc` standing
for the JS `Date` timestamp.
-/

namespace StockTake

/-- A JavaScript number as it occurs in this program: either `NaN`
(produced by `parseInt` on non-numeric input and propagated by
subtraction) or an integer, modelled exactly (the quantities of this
app stay far below 2^53, where the double representation of JS
numbers is exact). -/
inductive JSNum where
  | nan : JSNum
  | num : Int → JSNum
deriving DecidableEq, Repr

/-- JS subtraction on such numbers: `NaN` propagates. -/
def jsSub : JSNum → JSNum → JSNum
  | JSNum.num a, JSNum.num b => JSNum.num (a - b)
  | _, _ => JSNum.nan

/-- JS string coercion of such a number, as used to seed the modal's
text input (`countedQuantity?.toString()`). -/
def jsNumToString : JSNum → String
  | JSNum.nan => "NaN"
  | JSNum.num n => toString n

/-- A decimal digit (code points 48–57), the digits `parseInt`
consumes in radix 10. -/
def isDigitJS (c : Char) : Bool :=
  48 ≤ c.toNat && c.toNat ≤ 57

/-- Decimal value of a digit character. -/
def digitVal (c : Char) : Nat := c.toNat - 48

/-- Decimal value of a digit string (Horner evaluation, most significant
digit first) — the number formed by the leading digits of a numeric
string. -/
def decimalVal (ds : List Char) : Nat :=
  ds.foldl (fun a c => 10 * a + digitVal c) 0

/-- A hexadecimal digit (`0-9`, `a-f`, `A-F`), consumed after the
`0x`/`0X` prefix. -/
def isHexDigitJS (c : Char) : Bool :=
  isDigitJS c || (97 ≤ c.toNat && c.toNat ≤ 102) || (65 ≤ c.toNat && c.toNat ≤ 70)

/-- Value of a hexadecimal digit character. -/
def hexVal (c : Char) : Nat :=
  if c.toNat ≤ 57 then c.toNat - 48
  else if 97 ≤ c.toNat then c.toNat - 87
  else c.toNat - 55

/-- Value of a hexadecimal digit string (Horner evaluation). -/
def hexListVal (ds : List Char) : Nat :=
  ds.foldl (fun a c => 16 * a + hexVal c) 0

/-- The whitespace JS `parseInt` and `String.prototype.trim` strip:
ECMAScript WhiteSpace and LineTerminator — space, tab, LF, VT, FF, CR,
NBSP, Ogham space mark, the en-quad..hair-space range, line and
paragraph separators, narrow no-break space, medium mathematical
space, ideographic space, and the BOM. -/
def isJsSpace (c : Char) : Bool :=
  c.toNat = 0x20 || c.toNat = 0x9 || c.toNat = 0xA || c.toNat = 0xB ||
  c.toNat = 0xC || c.toNat = 0xD || c.toNat = 0xA0 || c.toNat = 0x1680 ||
  (0x2000 ≤ c.toNat && c.toNat ≤ 0x200A) || c.toNat = 0x2028 ||
  c.toNat = 0x2029 || c.toNat = 0x202F || c.toNat = 0x205F ||
  c.toNat = 0x3000 || c.toNat = 0xFEFF

/-- Parse the longest leading run of decimal digits; `none` when it is
empty (JS `NaN`). -/
def parseDigits (cs : List Char) : Option Nat :=
  let ds := cs.takeWhile isDigitJS
  if ds.isEmpty then none else some (decimalVal ds)

/-- Parse the longest leading run of hexadecimal digits; `none` when it
is empty (JS `NaN`). -/
def parseHexDigits (cs : List Char) : Option Nat :=
  let ds := cs.takeWhile isHexDigitJS
  if ds.isEmpty then none else some (hexListVal ds)

/-- The unsigned part of an undefined-radix `parseInt`: a `0x`/`0X`
prefix switches to hexadecimal, anything else parses as decimal. -/
def parseUnsigned (cs : List Char) : Option Nat :=
  if cs.take 2 = ['0', 'x'] ∨ cs.take 2 = ['0', 'X']
  then parseHexDigits (cs.drop 2)
  else parseDigits cs

/-- JS `parseInt` with no radix argument, as the save handler calls it:
skip leading whitespace, take an optional sign, then either the
hexadecimal number after a `0x`/`0X` prefix or the longest run of
decimal digits; `NaN` when no digit follows. -/
def parseIntJS (s : String) : JSNum :=
  match s.data.dropWhile isJsSpace with
  | '-' :: rest =>
      match parseUnsigned rest with
      | some n => JSNum.num (-(n : Int))
      | none => JSNum.nan
  | '+' :: rest =>
      match parseUnsigned rest with
      | some n => JSNum.num (n : Int)
      | none => JSNum.nan
  | cs =>
      match parseUnsigned cs with
      | some n => JSNum.num (n : Int)
      | none => JSNum.nan

/-- One inventory line item (`StockItem` interface of the sheets screen).
`countedQuantity = none` is the `null` "uncounted" sentinel; a counted
value is a `JSNum` since a malformed save can store `NaN`. -/
structure StockItem where
  id : String
  sheetId : String
  category : String
  itemName : String
  itemDescription : String
  location : String
  systemQuantity : Int
  countedQuantity : Option JSNum
  unit : String
  variance : JSNum
deriving DecidableEq, Repr

/-- One stock-take sheet card (`StockSheet` interface). -/
structure StockSheet where
  id : String
  sheetId : String
  date : String
  location : String
  createdBy : String
  status : String
  totalItems : Int
  discrepancies : Int
  expanded : Bool
deriving DecidableEq, Repr

/-- View-state of the stock-take-sheets screen: the React `useState`
cells of `StockTakeSheets` that the count-edit protocol and the
expansion toggles read and write. -/
structure SheetsState where
  modalVisible : Bool
  selectedItem : Option StockItem
  countInput : String
  expandedLocations : List String
  sheets : List StockSheet
  items : List StockItem
deriving DecidableEq, Repr

/-- `toggleSheetExpansion`: flip the `expanded` flag of the sheet with
the given id. -/
def toggleSheetExpansion (sheetId : String) (s : SheetsState) : SheetsState :=
  { s with sheets := s.sheets.map (fun sheet =>
      if sheet.id = sheetId then { sheet with expanded := !sheet.expanded } else sheet) }

/-- `toggleLocationExpansion`: remove the location from the expanded
list when present, append it when absent. -/
def toggleLocationExpansion (location : String) (s : SheetsState) : SheetsState :=
  { s with expandedLocations :=
      if location ∈ s.expandedLocations
      then s.expandedLocations.filter (fun loc => loc ≠ location)
      else s.expandedLocations ++ [location] }

/-- `openCountModal`: select the item, seed the count input with the
existing counted quantity when set (JS `countedQuantity?.toString() ||
systemQuantity.toString()`), else the system quantity, and show the
modal. -/
def openCountModal (item : StockItem) (s : SheetsState) : SheetsState :=
  { s with
    selectedItem := some item
    countInput :=
      match item.countedQuantity with
      | some q => jsNumToString q
      | none => toString item.systemQuantity
    modalVisible := true }

/-- `saveCount`: when an item is selected and the input is non-empty,
parse the input with `parseInt`, recompute the variance, replace the
fields of every item whose id matches the selection, close the modal
and clear selection and input. No parse-failure check exists: a `NaN`
parse is committed like any other value. -/
def saveCount (s : SheetsState) : SheetsState :=
  match s.selectedItem with
  | none => s
  | some sel =>
      if s.countInput = "" then s
      else
        let newCount := parseIntJS s.countInput
        let newVariance := jsSub newCount (JSNum.num sel.systemQuantity)
        { s with
          items := s.items.map (fun item =>
            if item.id = sel.id
            then { item with countedQuantity := some newCount, variance := newVariance }
            else item)
          modalVisible := false
          selectedItem := none
          countInput := "" }

/-- Cancel button of the count modal: hide the modal, touching nothing
else. -/
def cancelCountModal (s : SheetsState) : SheetsState :=
  { s with modalVisible := false }

/-- The first seeded item (system quantity 100, counted 98,
variance −2). -/
def seedItem1 : StockItem :=
  { id := "1", sheetId := "ST-202507000001", category := "FURNITURE",
    itemName := "Brake Disc with Granite Slab",
    itemDescription := "Solar Inverter with LDPE Film finish",
    location := "Warehouse A", systemQuantity := 100,
    countedQuantity := some (JSNum.num 98), unit := "UNIT",
    variance := JSNum.num (-2) }

/-- The seeded mock item collection of the sheets screen. -/
def seedItems : List StockItem :=
  [ seedItem1,
    { id := "2", sheetId := "ST-202507000001", category := "ELECTRONICS",
      itemName := "Industrial Motor Controller",
      itemDescription := "Heavy duty motor controller with cooling system",
      location := "Warehouse A", systemQuantity := 25,
      countedQuantity := none, unit := "PCS",
      variance := JSNum.num 0 },
    { id := "3", sheetId := "ST-202507000002", category := "RAW MATERIAL",
      itemName := "Steel Rod Bundle",
      itemDescription := "Premium steel rods for construction",
      location := "Warehouse B", systemQuantity := 50,
      countedQuantity := some (JSNum.num 52), unit := "BUNDLE",
      variance := JSNum.num 2 },
    { id := "4", sheetId := "ST-202507000001", category := "TOOLS",
      itemName := "Precision Drill Set",
      itemDescription := "Professional drill set with case",
      location := "Warehouse A", systemQuantity := 15,
      countedQuantity := none, unit := "SET",
      variance := JSNum.num 0 },
    { id := "5", sheetId := "ST-202507000002", category := "SAFETY",
      itemName := "Safety Helmet",
      itemDescription := "Industrial safety helmet with chin strap",
      location := "Warehouse B", systemQuantity := 200,
      countedQuantity := some (JSNum.num 195), unit := "PCS",
      variance := JSNum.num (-5) } ]

/-- The seeded mock sheet collection of the sheets screen. -/
def seedSheets : List StockSheet :=
  [ { id := "1", sheetId := "ST-202507000001", date := "07/22/2025",
      location := "Warehouse A", createdBy := "JOJO", status := "In Progress",
      totalItems := 5, discrepancies := 2, expanded := false },
    { id := "2", sheetId := "ST-202507000002", date := "07/21/2025",
      location := "Warehouse B", createdBy := "ADMIN", status := "Completed",
      totalItems := 8, discrepancies := 1, expanded := false },
    { id := "3", sheetId := "ST-202507000003", date := "07/20/2025",
      location := "Warehouse A", createdBy := "JOJO", status := "Draft",
      totalItems := 3, discrepancies := 0, expanded := false } ]

/-- The initial view-state of the sheets screen (`useState` initial
values: modal hidden, no selection, empty input, `Warehouse A`
expanded). -/
def initialSheetsState : SheetsState :=
  { modalVisible := false
    selectedItem := none
    countInput := ""
    expandedLocations := ["Warehouse A"]
    sheets := seedSheets
    items := seedItems }

/-- The variance invariant for one item: whenever the counted quantity
is set, the stored variance equals counted minus system quantity (with
JS `NaN` propagation). -/
def itemInv (it : StockItem) : Bool :=
  match it.countedQuantity with
  | none => true
  | some q => it.variance == jsSub q (JSNum.num it.systemQuantity)

/-- The variance invariant over a whole item collection. -/
def itemsInv (items : List StockItem) : Bool :=
  items.all itemInv

/-- Selection well-formedness: a selected item's system quantity agrees
with that of every item sharing its id in the collection (true whenever
the selection is a member of a collection with unique ids, as
established by `openCountModal`). -/
def selectionWf (s : SheetsState) : Bool :=
  match s.selectedItem with
  | none => true
  | some sel => s.items.all (fun it => it.id ≠ sel.id || it.systemQuantity == sel.systemQuantity)

/-- `groupedItems`'s reducer step: append the item to its location's
bucket, creating the bucket at the end on first sight of the location
(a JS object with non-index string keys preserves insertion order). -/
def groupUpd (acc : List (String × List StockItem)) (it : StockItem) :
    List (String × List StockItem) :=
  if acc.any (fun p => p.1 = it.location)
  then acc.map (fun p => if p.1 = it.location then (p.1, p.2 ++ [it]) else p)
  else acc ++ [(it.location, [it])]

/-- `groupedItems`: the derived grouping of the item collection by
location, as an insertion-ordered association list. -/
def groupedItems (items : List StockItem) : List (String × List StockItem) :=
  items.foldl groupUpd []

/-- Look up a location's bucket in a grouping. -/
def lookupG (l : String) (g : List (String × List StockItem)) : Option (List StockItem) :=
  (g.find? (fun p => p.1 = l)).map Prod.snd

/-- Modelled from the spec: "insertion order = first-seen order of
locations as items are scanned" — the expected key sequence of the
grouping, for comparison with what the code computes. -/
def firstSeenKeys (ls : List String) : List String :=
  ls.foldl (fun ks l => if l ∈ ks then ks else ks ++ [l]) []

/-! ## Civil dates

A JS `Date` with time-of-day stripped is modelled by a civil triple
`CDate` (1-based month, so JS `getMonth() = month - 1`) together with
`dfc`, the count of days since 0000-03-01, which stands for the
timestamp: JS `Date` comparison and `getTime()` equality are `dfc`
comparison and equality. -/

/-- A calendar date: year, month (1–12), day of month. -/
structure CDate where
  year : Nat
  month : Nat
  day : Nat
deriving DecidableEq, Repr

/-- Gregorian leap-year rule. -/
def isLeap (y : Nat) : Bool :=
  (y % 4 == 0 && y % 100 != 0) || y % 400 == 0

/-- Number of days in a month. -/
def daysInMonth (y m : Nat) : Nat :=
  if m = 2 then (if isLeap y then 29 else 28)
  else if m = 4 ∨ m = 6 ∨ m = 9 ∨ m = 11 then 30
  else 31

/-- A well-formed calendar date. -/
def validDate (d : CDate) : Prop :=
  1 ≤ d.year ∧ 1 ≤ d.month ∧ d.month ≤ 12 ∧ 1 ≤ d.day ∧ d.day ≤ daysInMonth d.year d.month

instance (d : CDate) : Decidable (validDate d) := by
  unfold validDate; infer_instance

/-- Days from civil: days elapsed since 0000-03-01, the timestamp of a
midnight `Date` (shifted year for January/February, Hinnant's
day-of-year formula for the March-based month). -/
def dfc (d : CDate) : Nat :=
  (if d.month ≤ 2 then d.year - 1 else d.year) * 365
    + (if d.month ≤ 2 then d.year - 1 else d.year) / 4
    - (if d.month ≤ 2 then d.year - 1 else d.year) / 100
    + (if d.month ≤ 2 then d.year - 1 else d.year) / 400
    + (153 * (if d.month ≤ 2 then d.month + 9 else d.month - 3) + 2) / 5
    + (d.day - 1)

/-- JS `getDay()`: weekday with 0 = Sunday (calibrated so that
1970-01-01, `dfc = 719468`, is a Thursday, day 4). -/
def getDay (d : CDate) : Nat := (dfc d + 3) % 7

/-- The day after a given date. -/
def nextDay (d : CDate) : CDate :=
  if d.day < daysInMonth d.year d.month then ⟨d.year, d.month, d.day + 1⟩
  else if d.month < 12 then ⟨d.year, d.month + 1, 1⟩
  else ⟨d.year + 1, 1, 1⟩

/-- The day before a given date. -/
def prevDay (d : CDate) : CDate :=
  if 1 < d.day then ⟨d.year, d.month, d.day - 1⟩
  else if 1 < d.month then ⟨d.year, d.month - 1, daysInMonth d.year (d.month - 1)⟩
  else ⟨d.year - 1, 12, 31⟩

/-- The smallest valid date of the model. -/
def minDate : CDate := ⟨1, 1, 1⟩

/-- Advance a date by a number of days (JS date arithmetic
`setDate(getDate() + i)`). -/
def addDays : Nat → CDate → CDate
  | 0, d => d
  | n + 1, d => addDays n (nextDay d)

/-- "Strictly before": the civil order on dates, the meaning of one
midnight `Date` being `<` another. -/
def cdLt (a b : CDate) : Prop :=
  a.year < b.year ∨
    (a.year = b.year ∧ (a.month < b.month ∨ (a.month = b.month ∧ a.day < b.day)))

instance (a b : CDate) : Decidable (cdLt a b) := by
  unfold cdLt; infer_instance

/-- Left-pad a number to two digits. -/
def pad2 (n : Nat) : String :=
  if n < 10 then "0" ++ toString n else toString n

/-- Left-pad a number to four digits. -/
def pad4 (n : Nat) : String :=
  if n < 10 then "000" ++ toString n
  else if n < 100 then "00" ++ toString n
  else if n < 1000 then "0" ++ toString n
  else toString n

/-- Canonical `YYYY-MM-DD` string of a date
(JS `toISOString().split('T')[0]`). -/
def toDateString (d : CDate) : String :=
  pad4 d.year ++ "-" ++ pad2 d.month ++ "-" ++ pad2 d.day

/-- One cell of the month grid, as built by `generateCalendarDays`. -/
structure CalendarDay where
  date : CDate
  day : Nat
  isCurrentMonth : Bool
  isToday : Bool
  isPast : Bool
  isSelected : Bool
  dateString : String
deriving DecidableEq, Repr

/-- The grid start date: `new Date(year, month, 1)` followed by
`setDate(1 - offset)`, which normalizes a day number ≤ 0 into the
previous month. -/
def gridStart (y m offset : Nat) : CDate :=
  if offset = 0 then ⟨y, m, 1⟩
  else if m = 1 then ⟨y - 1, 12, 32 - offset⟩
  else ⟨y, m - 1, daysInMonth y (m - 1) + 1 - offset⟩

/-- One cell of the calendar grid: the per-day record pushed by the
loop body of `generateCalendarDays`. `isToday` is `getTime()` equality
of midnight timestamps, `isPast` is `Date` `<` comparison; both are
`dfc` comparisons in the model. -/
def mkCalendarCell (m : Nat) (today : CDate) (selected : String) (d : CDate) : CalendarDay :=
  { date := d
    day := d.day
    isCurrentMonth := d.month == m
    isToday := dfc d == dfc today
    isPast := decide (dfc d < dfc today)
    isSelected := toDateString d == selected
    dateString := toDateString d }

/-- `generateCalendarDays`: the 42-cell month grid for reference year
`y` and (1-based) month `m`, given today's date and the currently
selected date string. -/
def generateCalendarDays (y m : Nat) (today : CDate) (selected : String) : List CalendarDay :=
  let firstDay : CDate := ⟨y, m, 1⟩
  let start := gridStart y m (getDay firstDay)
  (List.range 42).map (fun i => mkCalendarCell m today selected (addDays i start))

/-! ## Sheet-creation form -/

/-- The creation form's field values (`FormData` interface). -/
structure FormData where
  sheetName : String
  description : String
  location : String
  createdBy : String
  scheduledDate : String
deriving DecidableEq, Repr

/-- The creation form's error map (`FormErrors` interface): one
optional message per validated field. -/
structure FormErrors where
  sheetName : Option String
  location : Option String
  createdBy : Option String
  scheduledDate : Option String
deriving DecidableEq, Repr

/-- The empty error map. -/
def noErrors : FormErrors := ⟨none, none, none, none⟩

/-- JS `String.prototype.trim`: strip leading and trailing
whitespace. -/
def jsTrim (s : String) : String :=
  String.mk (((s.data.dropWhile isJsSpace).reverse.dropWhile isJsSpace).reverse)

/-- Split a character list at `'-'` separators. -/
def splitDash : List Char → List (List Char)
  | [] => [[]]
  | c :: rest =>
      if c = '-' then [] :: splitDash rest
      else
        match splitDash rest with
        | [] => [[c]]
        | g :: gs => (c :: g) :: gs

/-- A non-empty all-digit field's value, else `none`. -/
def digitField (cs : List Char) : Option Nat :=
  if cs ≠ [] ∧ cs.all Char.isDigit then some (decimalVal cs) else none

/-- `new Date("YYYY-MM-DD")` on the canonical date strings this app
produces: `none` is JS `Invalid Date`. -/
def parseISODate (s : String) : Option CDate :=
  match (splitDash s.data).map digitField with
  | [some y, some m, some d] =>
      if 1 ≤ m ∧ m ≤ 12 ∧ 1 ≤ d ∧ d ≤ daysInMonth y m then some ⟨y, m, d⟩ else none
  | _ => none

/-- `validateForm`: the pure validation pass over the form fields,
with `today` the current date, time-of-day stripped
(`new Date(); setHours(0,0,0,0)`). An unparseable scheduled date gives
an `Invalid Date` whose `NaN` comparison is false, hence no error. -/
def validateForm (fd : FormData) (today : CDate) : FormErrors :=
  { sheetName :=
      if (jsTrim fd.sheetName) = "" then some "Sheet name is required"
      else if (jsTrim fd.sheetName).length < 3 then some "Sheet name must be at least 3 characters"
      else none
    location := if (jsTrim fd.location) = "" then some "Location is required" else none
    createdBy := if (jsTrim fd.createdBy) = "" then some "Created by field is required" else none
    scheduledDate :=
      if fd.scheduledDate = "" then some "Scheduled date is required"
      else
        match parseISODate fd.scheduledDate with
        | some d => if cdLt d today then some "Scheduled date cannot be in the past" else none
        | none => none }

/-- The boolean `validateForm` returns
(`Object.keys(newErrors).length === 0`), which gates
`handleCreateSheet`'s submission. -/
def isFormValid (fd : FormData) (today : CDate) : Bool :=
  validateForm fd today == noErrors

/-- The error labels the specification names for the form rules. -/
inductive FieldErr where
  | required : FieldErr
  | tooShort : FieldErr
  | inPast : FieldErr
deriving DecidableEq, Repr

/-- Modelled from the spec: "Sheet name: fails `Required` if
empty/whitespace-only; fails `TooShort` if trimmed length < 3". -/
def sheetNameRule (s : String) : Option FieldErr :=
  if jsTrim s = "" then some FieldErr.required
  else if (jsTrim s).length < 3 then some FieldErr.tooShort
  else none

/-- Modelled from the spec: "fails `Required` if empty/whitespace-only"
(location and creator fields). -/
def requiredRule (s : String) : Option FieldErr :=
  if jsTrim s = "" then some FieldErr.required else none

/-- Modelled from the spec: "Scheduled date: fails `Required` if unset;
fails `InPast` if the date (time-of-day stripped) is strictly before
today (time-of-day stripped)". -/
def scheduledDateRule (s : String) (today : CDate) : Option FieldErr :=
  if s = "" then some FieldErr.required
  else
    match parseISODate s with
    | some d => if cdLt d today then some FieldErr.inPast else none
    | none => none

/-- The error labels of a spec-level validation outcome, one per
field. -/
structure SpecFormErrors where
  sheetName : Option FieldErr
  location : Option FieldErr
  createdBy : Option FieldErr
  scheduledDate : Option FieldErr
deriving DecidableEq, Repr

/-- Modelled from the spec: the four independent field rules, each
evaluated on its own field only (hence no early exit). -/
def specValidateForm (fd : FormData) (today : CDate) : SpecFormErrors :=
  { sheetName := sheetNameRule fd.sheetName
    location := requiredRule fd.location
    createdBy := requiredRule fd.createdBy
    scheduledDate := scheduledDateRule fd.scheduledDate today }

/-- Map the code's error messages back to the spec's labels. -/
def kindOf : Option String → Option FieldErr
  | some "Sheet name is required" => some FieldErr.required
  | some "Location is required" => some FieldErr.required
  | some "Created by field is required" => some FieldErr.required
  | some "Scheduled date is required" => some FieldErr.required
  | some "Sheet name must be at least 3 characters" => some FieldErr.tooShort
  | some "Scheduled date cannot be in the past" => some FieldErr.inPast
  | _ => none

/-- The labels of a computed error map. -/
def toKinds (e : FormErrors) : SpecFormErrors :=
  ⟨kindOf e.sheetName, kindOf e.location, kindOf e.createdBy, kindOf e.scheduledDate⟩

/-- View-state of the sheet-creation screen, restricted to the cells
the date-picker protocol touches. -/
structure CreateSheetState where
  formData : FormData
  errors : FormErrors
  showCalendar : Bool
deriving DecidableEq, Repr

/-- `updateFormData('scheduledDate', v)`: set the field and clear its
error. -/
def updateScheduledDate (v : String) (s : CreateSheetState) : CreateSheetState :=
  { s with
    formData := { s.formData with scheduledDate := v }
    errors := { s.errors with scheduledDate := none } }

/-- `handleDateSelect`: commit the chosen date string and close the
calendar. -/
def handleDateSelect (ds : String) (s : CreateSheetState) : CreateSheetState :=
  { updateScheduledDate ds s with showCalendar := false }

/-- A tap on a calendar cell: the cell's `onPress` runs
`!dayInfo.isPast && handleDateSelect(dayInfo.dateString)` and the
touchable is `disabled={dayInfo.isPast}`, so past cells are no-ops. -/
def pressCalendarCell (c : CalendarDay) (s : CreateSheetState) : CreateSheetState :=
  if c.isPast then s else handleDateSelect c.dateString s

/-! ## Concrete fixtures for witnesses -/

/-- The state after tapping the first seeded item: modal open, input
seeded with its counted quantity `"98"`. -/
def exEditingState : SheetsState := openCountModal seedItem1 initialSheetsState

/-- The editing state with non-numeric text typed into the count
input. -/
def exNanState : SheetsState := { exEditingState with countInput := "abc" }

/-- The editing state with a digits-then-letters string typed into the
count input. -/
def exPrefixState : SheetsState := { exEditingState with countInput := "12abc" }

/-- The editing state with a hexadecimal-prefixed string typed into the
count input. -/
def exHexState : SheetsState := { exEditingState with countInput := "0x1A" }

/-- A past cell of the October 2025 grid (today 2025-10-11). -/
def exPastCell : CalendarDay := mkCalendarCell 10 ⟨2025, 10, 11⟩ "2025-10-15" ⟨2025, 10, 5⟩

/-- A future cell of the October 2025 grid (today 2025-10-11). -/
def exFutureCell : CalendarDay := mkCalendarCell 10 ⟨2025, 10, 11⟩ "2025-10-15" ⟨2025, 10, 20⟩

/-- The spec's validation test input: short sheet name, empty
location, non-empty creator, past scheduled date. -/
def exBadForm : FormData :=
  { sheetName := "ab", description := "", location := "",
    createdBy := "X", scheduledDate := "2000-01-01" }

/-- A creation-screen state with the calendar open. -/
def exCreateState : CreateSheetState :=
  { formData := { sheetName := "", description := "", location := "",
                  createdBy := "JOJO", scheduledDate := "2025-10-11" }
    errors := noErrors
    showCalendar := true }

/-- Cell 0 of the July 2025 grid (today 2025-07-22, selected
2025-07-22): the overflow day 2025-06-29, a Sunday of the previous
month. -/
def exJulyCell : CalendarDay :=
  mkCalendarCell 7 ⟨2025, 7, 22⟩ "2025-07-22" ⟨2025, 6, 29⟩

/-! ## Theorems -/

/-- C9: For every expansion set and every location name, toggling that
location's expansion twice returns the expansion set to its original
membership (toggle is a membership involution: add if absent, remove
if present). -/
theorem toggleLocationExpansion_involutive (s : SheetsState) (loc x : String) :
    x ∈ (toggleLocationExpansion loc (toggleLocationExpansion loc s)).expandedLocations ↔
      x ∈ s.expandedLocations := by
  simp only [toggleLocationExpansion]
  by_cases h : loc ∈ s.expandedLocations
  · have h1 : loc ∉ s.expandedLocations.filter (fun l => l ≠ loc) := by
      intro hmem
      have h' := (List.mem_filter.mp hmem).2
      simp at h'
    rw [if_pos h, if_neg h1]
    constructor
    · intro hx
      rcases List.mem_append.mp hx with hx' | hx'
      · exact (List.mem_filter.mp hx').1
      · rw [List.mem_singleton.mp hx']; exact h
    · intro hx
      by_cases hxl : x = loc
      · exact List.mem_append.mpr (Or.inr (by simp [hxl]))
      · exact List.mem_append.mpr (Or.inl (List.mem_filter.mpr ⟨hx, by simpa using hxl⟩))
  · have h1 : loc ∈ s.expandedLocations ++ [loc] := by simp
    have h2 : (s.expandedLocations ++ [loc]).filter (fun l => l ≠ loc)
        = s.expandedLocations := by
      rw [List.filter_append]
      have ha : s.expandedLocations.filter (fun l => l ≠ loc) = s.expandedLocations :=
        List.filter_eq_self.mpr (fun a hmem => by
          have hne : a ≠ loc := by rintro rfl; exact h hmem
          simpa using hne)
      have hb : [loc].filter (fun l => l ≠ loc) = ([] : List String) := by simp
      rw [ha, hb, List.append_nil]
    rw [if_neg h, if_pos h1, h2]

/-- C3: The invariant `variance == countedQuantity - systemQuantity`
(whenever `countedQuantity` is set) holds in the seeded item
collection and is preserved by every operation of the view-state —
open modal, save count, cancel, and both expansion toggles; `saveCount`
recomputes the variance together with the counted quantity in the same
update, so the invariant is never left stale. -/
theorem varianceInvariant_preserved (s : SheetsState) (it : StockItem) (loc sid : String) :
    itemsInv seedItems = true ∧
    (selectionWf s = true → itemsInv s.items = true → itemsInv (saveCount s).items = true) ∧
    (itemsInv s.items = true → itemsInv (openCountModal it s).items = true) ∧
    (itemsInv s.items = true → itemsInv (cancelCountModal s).items = true) ∧
    (itemsInv s.items = true → itemsInv (toggleLocationExpansion loc s).items = true) ∧
    (itemsInv s.items = true → itemsInv (toggleSheetExpansion sid s).items = true) := by
  refine ⟨by decide, ?_, fun h => h, fun h => h, fun h => h, fun h => h⟩
  intro hwf hinv
  rcases hsel : s.selectedItem with _ | sel
  · simpa [saveCount, hsel] using hinv
  · by_cases hci : s.countInput = ""
    · simpa [saveCount, hsel, hci] using hinv
    · simp only [saveCount, hsel, hci, if_neg]
      rw [itemsInv, List.all_eq_true] at hinv ⊢
      intro x hx
      rcases List.mem_map.mp hx with ⟨item, hitem, rfl⟩
      by_cases hid : item.id = sel.id
      · have hsys : item.systemQuantity = sel.systemQuantity := by
          rw [selectionWf, hsel] at hwf
          rw [List.all_eq_true] at hwf
          have h' := hwf item hitem
          simpa [hid] using h'
        simp [hid, itemInv, hsys]
      · simpa [hid] using hinv item hitem

/-- Witness for C3: the invariant survives a concrete save on the
seeded collection (open the modal on the first item, save the seeded
input `"98"`). -/
theorem varianceInvariant_preserved_witness :
    itemsInv (saveCount exEditingState).items = true :=
  (varianceInvariant_preserved exEditingState seedItem1 "" "").2.1 (by decide) (by decide)

/-- Saving with a selection that occurs in an id-unique collection and
an input that parses to `n` replaces the selected item's entry (at its
unique index) and resets the modal state. Shared between the
valid-input and prefix-parse theorems. -/
theorem saveCount_commit_aux (s : SheetsState) (sel : StockItem) (n : Int)
    (hsel : s.selectedItem = some sel)
    (hmem : sel ∈ s.items)
    (hids : (s.items.map StockItem.id).Nodup)
    (hne : s.countInput ≠ "")
    (hparse : parseIntJS s.countInput = JSNum.num n) :
    (∃ i, ∃ hi : i < s.items.length,
        s.items.get ⟨i, hi⟩ = sel ∧
        (saveCount s).items =
          s.items.set i
            { sel with countedQuantity := some (JSNum.num n),
                       variance := JSNum.num (n - sel.systemQuantity) }) ∧
    (saveCount s).modalVisible = false ∧
    (saveCount s).selectedItem = none ∧
    (saveCount s).countInput = "" ∧
    (saveCount s).expandedLocations = s.expandedLocations ∧
    (saveCount s).sheets = s.sheets := by
  have hsave : saveCount s =
      { s with
        items := s.items.map (fun item =>
          if item.id = sel.id
          then { item with countedQuantity := some (JSNum.num n),
                           variance := JSNum.num (n - sel.systemQuantity) }
          else item)
        modalVisible := false
        selectedItem := none
        countInput := "" } := by
    rw [saveCount, hsel]
    simp only [hne, if_neg, hparse, jsSub]
    rfl
  rw [hsave]
  refine ⟨?_, rfl, rfl, rfl, rfl, rfl⟩
  obtain ⟨i, hi, hgi⟩ := List.mem_iff_getElem.mp hmem
  refine ⟨i, hi, by simpa using hgi, ?_⟩
  apply List.ext_getElem (by simp)
  intro j h1 h2
  have hj : j < s.items.length := by simpa using h2
  rw [List.getElem_map, List.getElem_set]
  by_cases hij : i = j
  · subst hij
    rw [if_pos rfl, hgi, if_pos rfl]
  · rw [if_neg hij]
    have hmi : i < (s.items.map StockItem.id).length := by simpa using hi
    have hmj : j < (s.items.map StockItem.id).length := by simpa using hj
    have hidne : (s.items[j]).id ≠ sel.id := by
      intro hid
      apply hij
      have heq : (s.items.map StockItem.id)[i] = (s.items.map StockItem.id)[j] := by
        rw [List.getElem_map, List.getElem_map, hgi, hid]
      exact hids.getElem_inj_iff.mp heq
    rw [if_neg hidne]

/-- C1: For every item collection with unique ids, every selected item
in that collection, and every non-empty count input that parses to the
integer `n`, `saveCount` replaces exactly the selected item with a copy
whose `countedQuantity` is `n` and whose `variance` is `n` minus its
`systemQuantity`, leaves every other item unchanged (a single-index
`set`), closes the modal, and clears the selection and the input. -/
theorem saveCount_valid_commit (s : SheetsState) (sel : StockItem) (n : Int)
    (hsel : s.selectedItem = some sel)
    (hmem : sel ∈ s.items)
    (hids : (s.items.map StockItem.id).Nodup)
    (hne : s.countInput ≠ "")
    (hparse : parseIntJS s.countInput = JSNum.num n) :
    (∃ i, ∃ hi : i < s.items.length,
        s.items.get ⟨i, hi⟩ = sel ∧
        (saveCount s).items =
          s.items.set i
            { sel with countedQuantity := some (JSNum.num n),
                       variance := JSNum.num (n - sel.systemQuantity) }) ∧
    (saveCount s).modalVisible = false ∧
    (saveCount s).selectedItem = none ∧
    (saveCount s).countInput = "" ∧
    (saveCount s).expandedLocations = s.expandedLocations ∧
    (saveCount s).sheets = s.sheets :=
  saveCount_commit_aux s sel n hsel hmem hids hne hparse

/-- Witness for C1: in the seeded state, opening the modal on the
first item (system quantity 100) and saving its seeded input `"98"`
yields counted quantity 98 and variance −2 at index 0, everything else
untouched. -/
theorem saveCount_valid_commit_witness :
    (∃ i, ∃ hi : i < exEditingState.items.length,
        exEditingState.items.get ⟨i, hi⟩ = seedItem1 ∧
        (saveCount exEditingState).items =
          exEditingState.items.set i
            { seedItem1 with countedQuantity := some (JSNum.num 98),
                             variance := JSNum.num (98 - seedItem1.systemQuantity) }) ∧
    (saveCount exEditingState).modalVisible = false ∧
    (saveCount exEditingState).selectedItem = none ∧
    (saveCount exEditingState).countInput = "" ∧
    (saveCount exEditingState).expandedLocations = exEditingState.expandedLocations ∧
    (saveCount exEditingState).sheets = exEditingState.sheets :=
  saveCount_valid_commit exEditingState seedItem1 98 rfl (by decide) (by decide)
    (by decide) (by decide)

/-- C2 counterexample: with the first seeded item selected and the
non-numeric input `"abc"`, the save is not a no-op and the modal does
not remain open — the item's counted quantity and variance become
`NaN` and the modal closes. -/
theorem saveCount_nonNumeric_cex :
    exNanState.modalVisible = true ∧
    exNanState.countInput = "abc" ∧
    (saveCount exNanState).modalVisible = false ∧
    ((saveCount exNanState).items.head?).map StockItem.countedQuantity
      = some (some JSNum.nan) ∧
    ((saveCount exNanState).items.head?).map StockItem.variance = some JSNum.nan := by
  refine ⟨rfl, rfl, ?_, ?_, ?_⟩ <;> decide

/-- C2 (amended): With an item selected, saving with empty input is a
no-op (the state, including the open modal and every item, is
unchanged); saving with non-empty input that fails to parse
(`parseInt` gives `NaN`) is **not** rejected: the target item's
counted quantity becomes `NaN`, its variance becomes `NaN`, and the
modal closes. -/
theorem saveCount_empty_noop_nan_commits (s : SheetsState) (sel : StockItem) :
    (s.selectedItem = some sel → s.countInput = "" → saveCount s = s) ∧
    (s.selectedItem = some sel → s.countInput ≠ "" →
      parseIntJS s.countInput = JSNum.nan →
      (saveCount s).modalVisible = false ∧
      (saveCount s).selectedItem = none ∧
      (saveCount s).countInput = "" ∧
      (saveCount s).items = s.items.map (fun item =>
        if item.id = sel.id
        then { item with countedQuantity := some JSNum.nan, variance := JSNum.nan }
        else item)) := by
  constructor
  · intro hsel hci
    simp [saveCount, hsel, hci]
  · intro hsel hci hparse
    rw [saveCount, hsel]
    simp only [hci, if_neg, hparse, jsSub]
    exact ⟨rfl, rfl, rfl, rfl⟩

/-- Witness for the amended C2: the empty-input no-op and the
`NaN`-commit, each at a concrete seeded state. -/
theorem saveCount_empty_noop_nan_commits_witness :
    saveCount { exEditingState with countInput := "" }
      = { exEditingState with countInput := "" } ∧
    (saveCount exNanState).modalVisible = false :=
  ⟨(saveCount_empty_noop_nan_commits { exEditingState with countInput := "" } seedItem1).1
      rfl rfl,
   ((saveCount_empty_noop_nan_commits exNanState seedItem1).2
      rfl (by decide) (by decide)).1⟩

/-- A decimal digit is not `parseInt` whitespace. -/
theorem digit_not_space (c : Char) (h : isDigitJS c = true) : isJsSpace c = false := by
  simp only [isDigitJS, Bool.and_eq_true, decide_eq_true_eq] at h
  cases hs : isJsSpace c with
  | false => rfl
  | true =>
      exfalso
      simp only [isJsSpace, Bool.or_eq_true, Bool.and_eq_true, decide_eq_true_eq] at hs
      omega

/-- `takeWhile` of the digit predicate over a digit run followed by a
non-digit keeps exactly the run. -/
theorem takeWhile_digits (ds r : List Char) (hdig : ∀ c ∈ ds, isDigitJS c = true)
    (hrh : ∀ c ∈ r.head?, isDigitJS c = false) :
    (ds ++ r).takeWhile isDigitJS = ds := by
  induction ds with
  | nil =>
      simp only [List.nil_append]
      cases r with
      | nil => rfl
      | cons c r' =>
          have hc := hrh c rfl
          simp [List.takeWhile_cons, hc]
  | cons d ds' ih =>
      have hd := hdig d (by simp)
      simp only [List.cons_append, List.takeWhile_cons, hd, if_true]
      rw [ih (fun c hc => hdig c (by simp [hc]))]

/-- The unsigned part of `parseInt` on a digit run followed by a
non-digit suffix is the decimal value of the run, provided the input
does not start with the hexadecimal prefix `0x`/`0X` (digit run
exactly `0`, suffix starting with `x` or `X`). -/
theorem parseUnsigned_prefix (ds r : List Char) (hne : ds ≠ [])
    (hdig : ∀ c ∈ ds, isDigitJS c = true)
    (hrh : ∀ c ∈ r.head?, isDigitJS c = false)
    (hhex : ds = ['0'] → ∀ c ∈ r.head?, c ≠ 'x' ∧ c ≠ 'X') :
    parseUnsigned (ds ++ r) = some (decimalVal ds) := by
  cases ds with
  | nil => exact absurd rfl hne
  | cons d ds' =>
    have htw : ((d :: ds') ++ r).takeWhile isDigitJS = d :: ds' :=
      takeWhile_digits _ _ hdig hrh
    have hnotx : ∀ ch : Char, ch = 'x' ∨ ch = 'X' →
        ((d :: ds') ++ r).take 2 = ['0', ch] → False := by
      intro ch hch htake
      rw [List.cons_append, List.take_succ_cons] at htake
      injection htake with h1 h2
      cases ds' with
      | nil =>
          simp only [List.nil_append] at h2
          cases r with
          | nil => simp at h2
          | cons c r' =>
              rw [List.take_succ_cons, List.take_zero] at h2
              injection h2 with h3 h4
              have hx := hhex (by rw [h1]) c rfl
              rcases hch with h5 | h5
              · exact hx.1 (by rw [h3, h5])
              · exact hx.2 (by rw [h3, h5])
      | cons e ds'' =>
          rw [List.cons_append, List.take_succ_cons, List.take_zero] at h2
          injection h2 with h3 h4
          have h5 := hdig e (by simp)
          rw [h3] at h5
          rcases hch with h6 | h6 <;> rw [h6] at h5 <;> exact absurd h5 (by decide)
    rw [parseUnsigned]
    have hcond : ¬ (((d :: ds') ++ r).take 2 = ['0', 'x'] ∨
        ((d :: ds') ++ r).take 2 = ['0', 'X']) := by
      rintro (h | h)
      · exact hnotx 'x' (Or.inl rfl) h
      · exact hnotx 'X' (Or.inr rfl) h
    rw [if_neg hcond, parseDigits, htw]
    simp [decimalVal]

/-- `parseInt` on a string made of a leading digit run followed by a
non-digit suffix returns the value of the digit run, except at a
hexadecimal `0x`/`0X` prefix. -/
theorem parseIntJS_prefix (ds r : List Char) (hne : ds ≠ [])
    (hdig : ∀ c ∈ ds, isDigitJS c = true)
    (hrh : ∀ c ∈ r.head?, isDigitJS c = false)
    (hhex : ds = ['0'] → ∀ c ∈ r.head?, c ≠ 'x' ∧ c ≠ 'X') :
    parseIntJS (String.mk (ds ++ r)) = JSNum.num (decimalVal ds) := by
  cases ds with
  | nil => exact absurd rfl hne
  | cons d ds' =>
    have hd : isDigitJS d = true := hdig d (by simp)
    have hdm : d ≠ '-' := by rintro rfl; exact absurd hd (by decide)
    have hdp : d ≠ '+' := by rintro rfl; exact absurd hd (by decide)
    have hsp : isJsSpace d = false := digit_not_space d hd
    have hun : parseUnsigned ((d :: ds') ++ r) = some (decimalVal (d :: ds')) :=
      parseUnsigned_prefix (d :: ds') r hne hdig hrh hhex
    have hdrop : ((d :: ds') ++ r).dropWhile isJsSpace = (d :: ds') ++ r := by
      simp [List.dropWhile_cons, hsp]
    rw [parseIntJS]
    have hdata : (String.mk ((d :: ds') ++ r)).data = (d :: ds') ++ r := rfl
    rw [hdata, hdrop]
    rw [List.cons_append]
    split
    · rename_i rest heq
      injection heq with h1 h2
      exact absurd h1 hdm
    · rename_i rest heq
      injection heq with h1 h2
      exact absurd h1 hdp
    · rw [← List.cons_append, hun]

/-- C10 counterexample: with the first seeded item selected and the
count input `"0x1A"` — a digit followed by non-digit characters — the
save does not commit the leading decimal integer 0: undefined-radix
`parseInt` parses the hexadecimal number 26 and the program commits
26. -/
theorem saveCount_hex_cex :
    exHexState.countInput = "0x1A" ∧
    decimalVal ['0'] = 0 ∧
    parseIntJS "0x1A" = JSNum.num 26 ∧
    ((saveCount exHexState).items.head?).map StockItem.countedQuantity
      = some (some (JSNum.num 26)) ∧
    (saveCount exHexState).modalVisible = false := by
  refine ⟨rfl, rfl, ?_, ?_, ?_⟩ <;> decide

/-- C10 (amended): With an item selected and a count input consisting
of a non-empty decimal-digit run followed by non-digit characters
(e.g. `"12abc"`), the save is not rejected: `parseInt` takes the
longest numeric prefix, the leading integer is committed as the
counted quantity, the variance becomes that integer minus the system
quantity, and the modal closes — provided the input does not start
with the hexadecimal prefix `0x`/`0X` (digit run exactly `0` followed
by `x` or `X`), where undefined-radix `parseInt` parses hexadecimal
instead. -/
theorem saveCount_prefix_commit (s : SheetsState) (sel : StockItem) (ds r : List Char)
    (hsel : s.selectedItem = some sel)
    (hmem : sel ∈ s.items)
    (hids : (s.items.map StockItem.id).Nodup)
    (hinput : s.countInput = String.mk (ds ++ r))
    (hds : ds ≠ [])
    (hdig : ∀ c ∈ ds, isDigitJS c = true)
    (_hrne : r ≠ [])
    (hrh : ∀ c ∈ r.head?, isDigitJS c = false)
    (hhex : ds = ['0'] → ∀ c ∈ r.head?, c ≠ 'x' ∧ c ≠ 'X') :
    parseIntJS s.countInput = JSNum.num (decimalVal ds) ∧
    (∃ i, ∃ hi : i < s.items.length,
        s.items.get ⟨i, hi⟩ = sel ∧
        (saveCount s).items =
          s.items.set i
            { sel with countedQuantity := some (JSNum.num (decimalVal ds)),
                       variance := JSNum.num (decimalVal ds - sel.systemQuantity) }) ∧
    (saveCount s).modalVisible = false := by
  have hparse : parseIntJS s.countInput = JSNum.num (decimalVal ds) := by
    rw [hinput]; exact parseIntJS_prefix ds r hds hdig hrh hhex
  have hne : s.countInput ≠ "" := by
    rw [hinput]
    intro h
    apply hds
    have hl : ds ++ r = [] := congrArg String.data h
    exact (List.append_eq_nil.mp hl).1
  have h := saveCount_commit_aux s sel (decimalVal ds) hsel hmem hids hne hparse
  exact ⟨hparse, h.1, h.2.1⟩

/-- Witness for C10: saving the input `"12abc"` on the first seeded
item commits counted quantity 12, variance 12 − 100, and closes the
modal. -/
theorem saveCount_prefix_commit_witness :
    parseIntJS exPrefixState.countInput = JSNum.num 12 ∧
    (∃ i, ∃ hi : i < exPrefixState.items.length,
        exPrefixState.items.get ⟨i, hi⟩ = seedItem1 ∧
        (saveCount exPrefixState).items =
          exPrefixState.items.set i
            { seedItem1 with countedQuantity := some (JSNum.num 12),
                             variance := JSNum.num (12 - seedItem1.systemQuantity) }) ∧
    (saveCount exPrefixState).modalVisible = false :=
  saveCount_prefix_commit exPrefixState seedItem1 ['1', '2'] ['a', 'b', 'c']
    rfl (by decide) (by decide) rfl (by decide) (by decide) (by decide) (by decide)
    (by decide)

/-- Lookup steps over one pair by comparing its key. -/
theorem lookupG_cons (p : String × List StockItem) (acc : List (String × List StockItem))
    (l : String) :
    lookupG l (p :: acc) = if p.1 = l then some p.2 else lookupG l acc := by
  by_cases hp : p.1 = l
  · have hfind := @List.find?_cons_of_pos _ (fun q : String × List StockItem => decide (q.1 = l))
      p acc (by simpa using hp)
    rw [if_pos hp, lookupG, hfind]
    rfl
  · have hfind := @List.find?_cons_of_neg _ (fun q : String × List StockItem => decide (q.1 = l))
      p acc (by simpa using hp)
    rw [if_neg hp, lookupG, hfind]
    rfl

/-- A key occurs in the grouping exactly when `any` finds it. -/
theorem any_key_eq_isSome (acc : List (String × List StockItem)) (k : String) :
    acc.any (fun p => p.1 = k) = (lookupG k acc).isSome := by
  induction acc with
  | nil => rfl
  | cons p acc' ih =>
      rw [List.any_cons, lookupG_cons]
      by_cases hp : p.1 = k
      · simp [hp]
      · simp [hp, ih]

/-- Appending the item to its key's bucket in place changes only the
lookup at that key. -/
theorem lookupG_bucket_append (acc : List (String × List StockItem)) (it : StockItem)
    (l : String) :
    lookupG l (acc.map (fun p => if p.1 = it.location then (p.1, p.2 ++ [it]) else p)) =
      if l = it.location
      then (lookupG l acc).map (fun w => w ++ [it])
      else lookupG l acc := by
  induction acc with
  | nil => simp [lookupG]
  | cons p acc' ih =>
      rw [List.map_cons, lookupG_cons, lookupG_cons]
      by_cases hpk : p.1 = it.location
      · by_cases hpl : p.1 = l
        · have hlk : l = it.location := by rw [← hpl, hpk]
          simp [hpk, hpl, hlk]
        · have hlk : ¬ l = it.location := fun h => hpl (hpk.trans h.symm)
          have hkl : ¬ it.location = l := fun h => hlk h.symm
          simp [hpk, hpl, hlk, hkl, ih]
      · by_cases hpl : p.1 = l
        · have hlk : ¬ l = it.location := fun h => hpk (hpl.trans h)
          simp [hpk, hpl, hlk]
        · simp [hpk, hpl, ih]

/-- Appending a fresh key-bucket pair affects only a previously absent
key. -/
theorem lookupG_append_single (acc : List (String × List StockItem)) (k : String)
    (v : List StockItem) (l : String) :
    lookupG l (acc ++ [(k, v)]) =
      match lookupG l acc with
      | some w => some w
      | none => if k = l then some v else none := by
  induction acc with
  | nil =>
      rw [List.nil_append, lookupG_cons]
      by_cases hkl : k = l
      · simp [hkl, lookupG]
      · simp [hkl, lookupG]
  | cons p acc' ih =>
      rw [List.cons_append, lookupG_cons, lookupG_cons]
      by_cases hpl : p.1 = l
      · simp [hpl]
      · simp only [hpl, if_false]
        exact ih

/-- One reducer step: the new item lands at the end of its own
location's bucket (created if absent); other buckets are untouched. -/
theorem lookupG_groupUpd (acc : List (String × List StockItem)) (it : StockItem)
    (l : String) :
    lookupG l (groupUpd acc it) =
      if l = it.location then
        match lookupG l acc with
        | some w => some (w ++ [it])
        | none => some [it]
      else lookupG l acc := by
  rw [groupUpd]
  by_cases hany : acc.any (fun p => p.1 = it.location) = true
  · rw [if_pos hany, lookupG_bucket_append]
    by_cases hl : l = it.location
    · rw [if_pos hl, if_pos hl]
      have hsome : (lookupG it.location acc).isSome := by
        rw [← any_key_eq_isSome]; exact hany
      rw [hl]
      cases hx : lookupG it.location acc with
      | none => rw [hx] at hsome; simp at hsome
      | some w => simp
    · rw [if_neg hl, if_neg hl]
  · rw [if_neg hany, lookupG_append_single]
    by_cases hl : l = it.location
    · rw [if_pos hl]
      have hnone : lookupG it.location acc = none := by
        cases hx : lookupG it.location acc with
        | none => rfl
        | some w =>
            exact absurd (by rw [any_key_eq_isSome, hx]; rfl) hany
      rw [hl, hnone, if_pos rfl]
    · rw [if_neg hl]
      cases hx : lookupG l acc with
      | none => rw [if_neg (fun h => hl h.symm)]
      | some w => rfl

/-- The fold of the reducer over the whole collection: each bucket is
the filtered subsequence of the scanned items, appended to whatever the
accumulator already held. -/
theorem foldl_groupUpd_lookup (items : List StockItem) :
    ∀ (acc : List (String × List StockItem)) (l : String),
      lookupG l (List.foldl groupUpd acc items) =
        match lookupG l acc with
        | some v => some (v ++ items.filter (fun it => it.location = l))
        | none =>
            if (items.filter (fun it => it.location = l)).isEmpty
            then none
            else some (items.filter (fun it => it.location = l)) := by
  induction items with
  | nil =>
      intro acc l
      cases hx : lookupG l acc <;> simp [hx]
  | cons it rest ih =>
      intro acc l
      rw [List.foldl_cons, ih (groupUpd acc it) l, lookupG_groupUpd]
      by_cases hl : l = it.location
      · have hc : (decide (it.location = l)) = true := by
          simp only [decide_eq_true_eq]
          exact hl.symm
        rw [if_pos hl, List.filter_cons, if_pos hc]
        cases lookupG l acc with
        | some w => simp
        | none => simp
      · have hloc : (decide (it.location = l)) = false := by
          simp only [decide_eq_false_iff_not]
          exact fun h => hl h.symm
        rw [if_neg hl, List.filter_cons, hloc]
        simp

/-- The keys produced by one reducer step. -/
theorem groupUpd_keys (acc : List (String × List StockItem)) (it : StockItem) :
    (groupUpd acc it).map Prod.fst =
      if it.location ∈ acc.map Prod.fst
      then acc.map Prod.fst
      else acc.map Prod.fst ++ [it.location] := by
  rw [groupUpd]
  have hmem : (acc.any (fun p => p.1 = it.location) = true)
      ↔ it.location ∈ acc.map Prod.fst := by
    simp [List.any_eq_true, List.mem_map]
  by_cases hany : acc.any (fun p => p.1 = it.location) = true
  · rw [if_pos hany, if_pos (hmem.mp hany), List.map_map]
    apply List.map_congr_left
    intro q _
    by_cases hq : q.1 = it.location
    · simp [hq]
    · simp [hq]
  · rw [if_neg hany, if_neg (fun h => hany (hmem.mpr h)), List.map_append]
    rfl

/-- The fold's key list: first-seen order, continuing from the
accumulator's keys. -/
theorem foldl_groupUpd_keys (items : List StockItem) :
    ∀ acc : List (String × List StockItem),
      (List.foldl groupUpd acc items).map Prod.fst =
        List.foldl (fun ks l => if l ∈ ks then ks else ks ++ [l]) (acc.map Prod.fst)
          (items.map (fun it => it.location)) := by
  induction items with
  | nil => intro acc; rfl
  | cons it rest ih =>
      intro acc
      rw [List.map_cons, List.foldl_cons, List.foldl_cons, ih (groupUpd acc it),
        groupUpd_keys]

/-- C8: Grouping by location yields keys in first-seen order of
locations as items are scanned, and the sequence under each location
key is exactly the subsequence of the input whose `location` matches
that key — no item duplicated, none dropped. -/
theorem groupedItems_spec (items : List StockItem) :
    ((groupedItems items).map Prod.fst
        = firstSeenKeys (items.map (fun it => it.location))) ∧
    ∀ l : String,
      lookupG l (groupedItems items) =
        if (items.filter (fun it => it.location = l)).isEmpty then none
        else some (items.filter (fun it => it.location = l)) := by
  constructor
  · rw [groupedItems, firstSeenKeys, foldl_groupUpd_keys]
    rfl
  · intro l
    have h := foldl_groupUpd_lookup items [] l
    rw [groupedItems]
    rw [h]
    rfl

/-- C4: Validation computes exactly the four independent field rules
of the spec (sheetName: `Required` else `TooShort`; location and
createdBy: `Required`; scheduledDate: `Required` else `InPast` when
strictly before today), each rule reading only its own field, with no
early exit; the form is submittable iff the error map is empty; and
the spec's test input `{sheetName: "ab", location: "", createdBy: "X",
scheduledDate: "2000-01-01"}` produces exactly the three errors
`TooShort`, `Required` (location), `InPast` whenever today is after
2000-01-01. -/
theorem validateForm_rules (fd : FormData) (today : CDate) :
    (toKinds (validateForm fd today) = specValidateForm fd today) ∧
    (isFormValid fd today = true ↔ validateForm fd today = noErrors) ∧
    (cdLt ⟨2000, 1, 1⟩ today →
      validateForm exBadForm today =
        { sheetName := some "Sheet name must be at least 3 characters",
          location := some "Location is required",
          createdBy := none,
          scheduledDate := some "Scheduled date cannot be in the past" }) := by
  refine ⟨?_, ?_, ?_⟩
  · unfold toKinds validateForm specValidateForm sheetNameRule requiredRule scheduledDateRule
    dsimp only
    rw [SpecFormErrors.mk.injEq]
    refine ⟨?_, ?_, ?_, ?_⟩
    · split_ifs <;> rfl
    · split_ifs <;> rfl
    · split_ifs <;> rfl
    · split_ifs with h1
      · rfl
      · cases parseISODate fd.scheduledDate with
        | none => rfl
        | some d =>
            dsimp only
            split_ifs <;> rfl
  · rw [isFormValid, beq_iff_eq]
  · intro h
    unfold validateForm
    rw [FormErrors.mk.injEq]
    refine ⟨by decide, by decide, by decide, ?_⟩
    rw [if_neg (by decide : ¬ (exBadForm.scheduledDate = ""))]
    have hp : parseISODate exBadForm.scheduledDate = some ⟨2000, 1, 1⟩ := by decide
    rw [hp]
    exact if_pos h

/-- Witness for C4: the spec's test input validated against today =
2025-10-11 yields exactly the three expected errors. -/
theorem validateForm_rules_witness :
    validateForm exBadForm ⟨2025, 10, 11⟩ =
      { sheetName := some "Sheet name must be at least 3 characters",
        location := some "Location is required",
        createdBy := none,
        scheduledDate := some "Scheduled date cannot be in the past" } :=
  (validateForm_rules exBadForm ⟨2025, 10, 11⟩).2.2 (by decide)

/-- C7: A selection attempt on a cell marked `isPast` is a no-op — the
whole creation-screen state, including the selected scheduled date and
the open calendar, is unchanged; a cell not marked `isPast` is
selectable regardless of its `inCurrentMonth` flag: pressing it sets
the scheduled date to the cell's date string and closes the
calendar. -/
theorem pressCalendarCell_past_noop (c : CalendarDay) (s : CreateSheetState) :
    (c.isPast = true → pressCalendarCell c s = s) ∧
    (c.isPast = false →
      (pressCalendarCell c s).formData.scheduledDate = c.dateString ∧
      (pressCalendarCell c s).showCalendar = false) := by
  constructor
  · intro h
    rw [pressCalendarCell, if_pos h]
  · intro h
    rw [pressCalendarCell, if_neg (by simp [h])]
    exact ⟨rfl, rfl⟩

/-- Witness for C7: on the October 2025 grid (today 2025-10-11), the
past cell 2025-10-05 rejects selection, and the future cell 2025-10-20
is selected and closes the calendar. -/
theorem pressCalendarCell_past_noop_witness :
    pressCalendarCell exPastCell exCreateState = exCreateState ∧
    (pressCalendarCell exFutureCell exCreateState).formData.scheduledDate
      = exFutureCell.dateString ∧
    (pressCalendarCell exFutureCell exCreateState).showCalendar = false :=
  ⟨(pressCalendarCell_past_noop exPastCell exCreateState).1 (by decide),
   (pressCalendarCell_past_noop exFutureCell exCreateState).2 (by decide)⟩

/-! ## Calendar-date lemmas and the grid theorems -/

/-- Every month has at least 28 days. -/
theorem daysInMonth_ge_28 (y m : Nat) : 28 ≤ daysInMonth y m := by
  rw [daysInMonth]; split_ifs <;> omega

/-- Every month has at most 31 days. -/
theorem daysInMonth_le_31 (y m : Nat) : daysInMonth y m ≤ 31 := by
  rw [daysInMonth]; split_ifs <;> omega

/-- The successor of a valid date is valid. -/
theorem nextDay_valid {d : CDate} (h : validDate d) : validDate (nextDay d) := by
  obtain ⟨y, m, dd⟩ := d
  obtain ⟨hy, hm1, hm2, hd1, hd2⟩ :
      1 ≤ y ∧ 1 ≤ m ∧ m ≤ 12 ∧ 1 ≤ dd ∧ dd ≤ daysInMonth y m := h
  rw [nextDay]
  dsimp only
  split_ifs with h1 h2
  · show 1 ≤ y ∧ 1 ≤ m ∧ m ≤ 12 ∧ 1 ≤ dd + 1 ∧ dd + 1 ≤ daysInMonth y m
    exact ⟨hy, hm1, hm2, by omega, by omega⟩
  · show 1 ≤ y ∧ 1 ≤ m + 1 ∧ m + 1 ≤ 12 ∧ 1 ≤ 1 ∧ 1 ≤ daysInMonth y (m + 1)
    have := daysInMonth_ge_28 y (m + 1)
    exact ⟨hy, by omega, by omega, by omega, by omega⟩
  · show 1 ≤ y + 1 ∧ 1 ≤ 1 ∧ 1 ≤ 12 ∧ 1 ≤ 1 ∧ 1 ≤ daysInMonth (y + 1) 1
    have := daysInMonth_ge_28 (y + 1) 1
    exact ⟨by omega, by omega, by omega, by omega, by omega⟩

set_option maxHeartbeats 1600000 in
/-- The day count increments by one from each valid date to the
next: `dfc` counts days. -/
theorem dfc_step {d : CDate} (h : validDate d) : dfc (nextDay d) = dfc d + 1 := by
  obtain ⟨y, m, dd⟩ := d
  obtain ⟨hy, hm1, hm2, hd1, hd2⟩ :
      1 ≤ y ∧ 1 ≤ m ∧ m ≤ 12 ∧ 1 ≤ dd ∧ dd ≤ daysInMonth y m := h
  have hlb : isLeap y = true ↔ ((y % 4 = 0 ∧ ¬ y % 100 = 0) ∨ y % 400 = 0) := by
    simp [isLeap, Bool.or_eq_true, Bool.and_eq_true, beq_iff_eq, bne_iff_ne]
  rw [nextDay]
  dsimp only
  split_ifs with h1 h2
  · simp only [dfc]
    split_ifs <;> omega
  · have hdd : dd = daysInMonth y m := by omega
    subst hdd
    cases hl : isLeap y with
    | false =>
        have hln : ¬ ((y % 4 = 0 ∧ ¬ y % 100 = 0) ∨ y % 400 = 0) := by
          intro hc
          rw [hlb.mpr hc] at hl
          exact Bool.noConfusion hl
        interval_cases m <;> simp only [daysInMonth, dfc, hl] <;> norm_num <;> omega
    | true =>
        have hlp := hlb.mp hl
        interval_cases m <;> simp only [daysInMonth, dfc, hl] <;> norm_num <;> omega
  · have h31 : daysInMonth y 12 = 31 := by norm_num [daysInMonth]
    have hm12 : m = 12 := by omega
    subst hm12
    have hdd : dd = 31 := by omega
    subst hdd
    simp only [dfc]
    norm_num


/-- A valid first-of-January date other than the minimum has year at
least 2. -/
theorem ne_min_year2 {y m dd : Nat} (hd1 : 1 ≤ dd) (h1 : ¬ 1 < dd) (h2 : ¬ 1 < m)
    (hm1 : 1 ≤ m) (hy : 1 ≤ y) (hne : (⟨y, m, dd⟩ : CDate) ≠ minDate) : 2 ≤ y := by
  by_contra hc
  apply hne
  have hyy : y = 1 := by omega
  have hmm : m = 1 := by omega
  have hdd : dd = 1 := by omega
  subst hyy; subst hmm; subst hdd
  rfl

/-- The predecessor of a valid non-minimal date is valid. -/
theorem prevDay_valid {d : CDate} (h : validDate d) (hne : d ≠ minDate) :
    validDate (prevDay d) := by
  obtain ⟨y, m, dd⟩ := d
  obtain ⟨hy, hm1, hm2, hd1, hd2⟩ :
      1 ≤ y ∧ 1 ≤ m ∧ m ≤ 12 ∧ 1 ≤ dd ∧ dd ≤ daysInMonth y m := h
  rw [prevDay]
  try dsimp only
  split_ifs with h1 h2
  · show 1 ≤ y ∧ 1 ≤ m ∧ m ≤ 12 ∧ 1 ≤ dd - 1 ∧ dd - 1 ≤ daysInMonth y m
    exact ⟨hy, hm1, hm2, by omega, by omega⟩
  · show 1 ≤ y ∧ 1 ≤ m - 1 ∧ m - 1 ≤ 12 ∧ 1 ≤ daysInMonth y (m - 1) ∧
        daysInMonth y (m - 1) ≤ daysInMonth y (m - 1)
    have := daysInMonth_ge_28 y (m - 1)
    exact ⟨hy, by omega, by omega, by omega, le_refl _⟩
  · have hy2 : 2 ≤ y := ne_min_year2 hd1 h1 h2 hm1 hy hne
    show 1 ≤ y - 1 ∧ 1 ≤ 12 ∧ 12 ≤ 12 ∧ 1 ≤ 31 ∧ 31 ≤ daysInMonth (y - 1) 12
    have h31 : daysInMonth (y - 1) 12 = 31 := by norm_num [daysInMonth]
    exact ⟨by omega, by omega, le_refl _, by omega, by omega⟩

/-- `nextDay` undoes `prevDay` on valid non-minimal dates. -/
theorem nextDay_prevDay {d : CDate} (h : validDate d) (hne : d ≠ minDate) :
    nextDay (prevDay d) = d := by
  obtain ⟨y, m, dd⟩ := d
  obtain ⟨hy, hm1, hm2, hd1, hd2⟩ :
      1 ≤ y ∧ 1 ≤ m ∧ m ≤ 12 ∧ 1 ≤ dd ∧ dd ≤ daysInMonth y m := h
  rw [prevDay]
  try dsimp only
  split_ifs with h1 h2
  · rw [nextDay]
    try dsimp only
    rw [if_pos (by omega : dd - 1 < daysInMonth y m)]
    exact congrArg (CDate.mk y m) (by omega)
  · have hdd : dd = 1 := by omega
    subst hdd
    rw [nextDay]
    try dsimp only
    rw [if_neg (by omega : ¬ daysInMonth y (m - 1) < daysInMonth y (m - 1)),
      if_pos (by omega : m - 1 < 12)]
    exact congrArg (fun t => CDate.mk y t 1) (by omega)
  · have hy2 : 2 ≤ y := ne_min_year2 hd1 h1 h2 hm1 hy hne
    have hdd : dd = 1 := by omega
    subst hdd
    have hmm : m = 1 := by omega
    subst hmm
    rw [nextDay]
    try dsimp only
    have h31 : daysInMonth (y - 1) 12 = 31 := by norm_num [daysInMonth]
    rw [if_neg (by omega : ¬ (31 : Nat) < daysInMonth (y - 1) 12),
      if_neg (by norm_num : ¬ (12 : Nat) < 12)]
    exact congrArg (fun t => CDate.mk t 1 1) (by omega)

/-- The day count decrements by one to the previous date. -/
theorem dfc_prevDay {d : CDate} (h : validDate d) (hne : d ≠ minDate) :
    dfc (prevDay d) + 1 = dfc d := by
  have h1 := dfc_step (prevDay_valid h hne)
  rw [nextDay_prevDay h hne] at h1
  omega

/-- No valid date is strictly before the minimum date. -/
theorem not_cdLt_min {a : CDate} (ha : validDate a) : ¬ cdLt a minDate := by
  obtain ⟨y, m, dd⟩ := a
  obtain ⟨hy, hm1, hm2, hd1, hd2⟩ :
      1 ≤ y ∧ 1 ≤ m ∧ m ≤ 12 ∧ 1 ≤ dd ∧ dd ≤ daysInMonth y m := ha
  intro hlt
  rw [cdLt, minDate] at hlt
  try dsimp only at hlt
  omega

/-- `prevDay b` is the immediate predecessor of `b` in civil order:
anything strictly before `b` is at or before `prevDay b`. -/
theorem le_prevDay {a b : CDate} (ha : validDate a) (hb : validDate b)
    (hab : cdLt a b) (hne : b ≠ minDate) :
    cdLt a (prevDay b) ∨ a = prevDay b := by
  obtain ⟨ya, ma, da⟩ := a
  obtain ⟨yb, mb, db⟩ := b
  obtain ⟨hya, hma1, hma2, hda1, hda2⟩ :
      1 ≤ ya ∧ 1 ≤ ma ∧ ma ≤ 12 ∧ 1 ≤ da ∧ da ≤ daysInMonth ya ma := ha
  obtain ⟨hyb, hmb1, hmb2, hdb1, hdb2⟩ :
      1 ≤ yb ∧ 1 ≤ mb ∧ mb ≤ 12 ∧ 1 ≤ db ∧ db ≤ daysInMonth yb mb := hb
  rw [cdLt] at hab
  try dsimp only at hab
  rw [prevDay]
  try dsimp only
  split_ifs with h1 h2
  · simp only [cdLt, CDate.mk.injEq, true_and, and_true]
    try dsimp only
    omega
  · by_cases hy : ya = yb
    · subst hy
      by_cases hm : ma = mb - 1
      · subst hm
        simp only [cdLt, CDate.mk.injEq, true_and, and_true]
        try dsimp only
        omega
      · simp only [cdLt, CDate.mk.injEq, true_and, and_true]
        try dsimp only
        omega
    · simp only [cdLt, CDate.mk.injEq, true_and, and_true]
      try dsimp only
      omega
  · have hy2 : 2 ≤ yb := ne_min_year2 hdb1 h1 h2 hmb1 hyb hne
    by_cases hma : ma = 12
    · subst hma
      have h31 : daysInMonth ya 12 = 31 := by norm_num [daysInMonth]
      simp only [cdLt, CDate.mk.injEq, true_and, and_true]
      try dsimp only
      omega
    · simp only [cdLt, CDate.mk.injEq, true_and, and_true]
      try dsimp only
      omega

/-- Strict monotonicity of `dfc`, by strong induction on the day
count, stepping down through `prevDay`. -/
theorem dfc_lt_aux : ∀ (n : Nat) (b : CDate), validDate b → dfc b ≤ n →
    ∀ a : CDate, validDate a → cdLt a b → dfc a < dfc b := by
  intro n
  induction n with
  | zero =>
      intro b hb hbn a ha hab
      have hne : b ≠ minDate := by
        rintro rfl
        exact not_cdLt_min ha hab
      have := dfc_prevDay hb hne
      omega
  | succ k ih =>
      intro b hb hbn a ha hab
      have hne : b ≠ minDate := by
        rintro rfl
        exact not_cdLt_min ha hab
      have hpd := dfc_prevDay hb hne
      have hpv := prevDay_valid hb hne
      rcases le_prevDay ha hb hab hne with h' | h'
      · have := ih (prevDay b) hpv (by omega) a ha h'
        omega
      · rw [h']
        omega

/-- A date strictly before another has a strictly smaller day
count. -/
theorem dfc_lt_of_cdLt {a b : CDate} (ha : validDate a) (hb : validDate b)
    (hab : cdLt a b) : dfc a < dfc b :=
  dfc_lt_aux (dfc b) b hb le_rfl a ha hab

/-- The civil order is trichotomous. -/
theorem cdLt_trichotomy (a b : CDate) : cdLt a b ∨ a = b ∨ cdLt b a := by
  obtain ⟨ya, ma, da⟩ := a
  obtain ⟨yb, mb, db⟩ := b
  simp only [cdLt, CDate.mk.injEq, true_and, and_true]
  try dsimp only
  omega

/-- The day count is injective on valid dates: `getTime()` equality
of stripped dates is date equality. -/
theorem dfc_inj {a b : CDate} (ha : validDate a) (hb : validDate b)
    (h : dfc a = dfc b) : a = b := by
  rcases cdLt_trichotomy a b with h' | h' | h'
  · exact absurd (dfc_lt_of_cdLt ha hb h') (by omega)
  · exact h'
  · exact absurd (dfc_lt_of_cdLt hb ha h') (by omega)

/-- Timestamp comparison coincides with the civil strictly-before
order on valid dates. -/
theorem dfc_lt_iff {a b : CDate} (ha : validDate a) (hb : validDate b) :
    dfc a < dfc b ↔ cdLt a b := by
  constructor
  · intro h
    rcases cdLt_trichotomy a b with h' | h' | h'
    · exact h'
    · subst h'; omega
    · exact absurd (dfc_lt_of_cdLt hb ha h') (by omega)
  · exact dfc_lt_of_cdLt ha hb

/-- Advancing a valid date preserves validity and adds exactly `n` to
the day count. -/
theorem addDays_valid_dfc : ∀ (n : Nat) (d : CDate), validDate d →
    validDate (addDays n d) ∧ dfc (addDays n d) = dfc d + n := by
  intro n
  induction n with
  | zero => intro d hd; exact ⟨hd, rfl⟩
  | succ k ih =>
      intro d hd
      have h1 := nextDay_valid hd
      have h2 := dfc_step hd
      have h3 := ih (nextDay d) h1
      rw [show addDays (k + 1) d = addDays k (nextDay d) from rfl]
      exact ⟨h3.1, by omega⟩

/-- Weekdays are in `0..6`. -/
theorem getDay_lt_7 (d : CDate) : getDay d < 7 :=
  Nat.mod_lt _ (by norm_num)

/-- The grid start date is a valid date whenever the weekday offset is
at most 6. -/
theorem gridStart_valid (y m offset : Nat) (hy : 2 ≤ y) (hm1 : 1 ≤ m) (hm2 : m ≤ 12)
    (ho : offset ≤ 6) : validDate (gridStart y m offset) := by
  rw [gridStart]
  split_ifs with h1 h2
  · show 1 ≤ y ∧ 1 ≤ m ∧ m ≤ 12 ∧ 1 ≤ 1 ∧ 1 ≤ daysInMonth y m
    have := daysInMonth_ge_28 y m
    exact ⟨by omega, hm1, hm2, by omega, by omega⟩
  · show 1 ≤ y - 1 ∧ 1 ≤ 12 ∧ 12 ≤ 12 ∧ 1 ≤ 32 - offset ∧ 32 - offset ≤ daysInMonth (y - 1) 12
    have h31 : daysInMonth (y - 1) 12 = 31 := by norm_num [daysInMonth]
    exact ⟨by omega, by omega, by omega, by omega, by omega⟩
  · show 1 ≤ y ∧ 1 ≤ m - 1 ∧ m - 1 ≤ 12 ∧ 1 ≤ daysInMonth y (m - 1) + 1 - offset ∧
        daysInMonth y (m - 1) + 1 - offset ≤ daysInMonth y (m - 1)
    have h28 := daysInMonth_ge_28 y (m - 1)
    exact ⟨by omega, by omega, by omega, by omega, by omega⟩

set_option maxHeartbeats 1600000 in
/-- The grid start sits exactly `offset` days before the first of the
reference month. -/
theorem dfc_gridStart (y m offset : Nat) (hy : 2 ≤ y) (hm1 : 1 ≤ m) (hm2 : m ≤ 12)
    (ho : offset ≤ 6) : dfc (gridStart y m offset) + offset = dfc ⟨y, m, 1⟩ := by
  have hlb : isLeap y = true ↔ ((y % 4 = 0 ∧ ¬ y % 100 = 0) ∨ y % 400 = 0) := by
    simp [isLeap, Bool.or_eq_true, Bool.and_eq_true, beq_iff_eq, bne_iff_ne]
  rw [gridStart]
  split_ifs with h1 h2
  · subst h1
    omega
  · subst h2
    simp only [dfc]
    norm_num
    omega
  · cases hl : isLeap y with
    | false =>
        have hln : ¬ ((y % 4 = 0 ∧ ¬ y % 100 = 0) ∨ y % 400 = 0) := by
          intro hc
          rw [hlb.mpr hc] at hl
          exact Bool.noConfusion hl
        interval_cases m <;> simp only [daysInMonth, dfc, hl] <;> norm_num <;> omega
    | true =>
        have hlp := hlb.mp hl
        interval_cases m <;> simp only [daysInMonth, dfc, hl] <;> norm_num <;> omega

/-- The grid start (first of the month minus its weekday) falls on a
Sunday. -/
theorem getDay_gridStart (y m : Nat) (hy : 2 ≤ y) (hm1 : 1 ≤ m) (hm2 : m ≤ 12) :
    getDay (gridStart y m (getDay ⟨y, m, 1⟩)) = 0 := by
  have h7 := getDay_lt_7 ⟨y, m, 1⟩
  have h := dfc_gridStart y m (getDay ⟨y, m, 1⟩) hy hm1 hm2 (by omega)
  have ho : getDay ⟨y, m, 1⟩ = (dfc ⟨y, m, 1⟩ + 3) % 7 := rfl
  rw [getDay]
  omega

/-- A valid date within 6 days before to 41 days after the first of a
reference month, whose month-of-year equals the reference month, lies
in the reference year: month-index equality is unambiguous inside one
42-day grid. -/
theorem month_eq_imp_year (y m : Nat) (d : CDate) (hy : 2 ≤ y) (hm1 : 1 ≤ m)
    (hm2 : m ≤ 12) (hd : validDate d) (hmm : d.month = m)
    (hlo : dfc ⟨y, m, 1⟩ ≤ dfc d + 6) (hhi : dfc d ≤ dfc ⟨y, m, 1⟩ + 41) :
    d.year = y := by
  obtain ⟨yd, md, dd⟩ := d
  obtain ⟨hyd, hmd1, hmd2, hdd1, hdd2⟩ :
      1 ≤ yd ∧ 1 ≤ md ∧ md ≤ 12 ∧ 1 ≤ dd ∧ dd ≤ daysInMonth yd md := hd
  dsimp only at hmm
  subst hmm
  have hd31 := daysInMonth_le_31 yd md
  simp only [dfc] at hlo hhi
  show yd = y
  by_cases hle : md ≤ 2
  · simp only [if_pos hle] at hlo hhi
    omega
  · simp only [if_neg hle] at hlo hhi
    omega

/-- C5: For every reference year/month (year at least 2, month 1-12),
the calendar grid builder returns exactly 42 cells, the cells are 42
consecutive calendar days starting from a start date, and cell 0
falls on a Sunday — the first of the reference month minus its
0 = Sunday weekday offset. -/
theorem generateCalendarDays_grid (y m : Nat) (today : CDate) (sel : String)
    (hy : 2 ≤ y) (hm1 : 1 ≤ m) (hm2 : m ≤ 12) :
    ∃ start : CDate,
      (generateCalendarDays y m today sel).length = 42 ∧
      (∀ i, ∀ hi : i < (generateCalendarDays y m today sel).length,
          ((generateCalendarDays y m today sel).get ⟨i, hi⟩).date = addDays i start) ∧
      (∀ i, i ≤ 41 → validDate (addDays i start) ∧ dfc (addDays i start) = dfc start + i) ∧
      getDay start = 0 ∧
      dfc start + getDay ⟨y, m, 1⟩ = dfc ⟨y, m, 1⟩ := by
  have h7 := getDay_lt_7 ⟨y, m, 1⟩
  refine ⟨gridStart y m (getDay ⟨y, m, 1⟩), ?_, ?_, ?_, ?_, ?_⟩
  · simp [generateCalendarDays]
  · intro i hi
    simp only [generateCalendarDays, List.get_eq_getElem, List.getElem_map,
      List.getElem_range]
    rfl
  · intro i hi
    exact addDays_valid_dfc i _ (gridStart_valid y m _ hy hm1 hm2 (by omega))
  · exact getDay_gridStart y m hy hm1 hm2
  · exact dfc_gridStart y m _ hy hm1 hm2 (by omega)

/-- C6: Every cell of the generated grid is classified correctly:
`isCurrentMonth` is true iff the cell's civil year and month equal the
reference (overflow cells of adjacent months get `false`), `isToday`
iff the cell's date equals today (time stripped), `isPast` iff the
cell's date is strictly before today, and `isSelected` iff the cell's
canonical `YYYY-MM-DD` string equals the selected date; the flags are
correct on overflow cells too, which are part of the same quantified
statement. -/
theorem generateCalendarDays_flags (y m : Nat) (today : CDate) (sel : String)
    (hy : 2 ≤ y) (hm1 : 1 ≤ m) (hm2 : m ≤ 12) (ht : validDate today) :
    ∀ c ∈ generateCalendarDays y m today sel,
      ((c.isCurrentMonth = true) ↔ (c.date.year = y ∧ c.date.month = m)) ∧
      ((c.isToday = true) ↔ c.date = today) ∧
      ((c.isPast = true) ↔ cdLt c.date today) ∧
      ((c.isSelected = true) ↔ c.dateString = sel) ∧
      c.dateString = toDateString c.date ∧
      c.day = c.date.day := by
  intro c hc
  have h7 := getDay_lt_7 ⟨y, m, 1⟩
  simp only [generateCalendarDays, List.mem_map, List.mem_range] at hc
  obtain ⟨i, hi42, rfl⟩ := hc
  have hgv := gridStart_valid y m (getDay ⟨y, m, 1⟩) hy hm1 hm2 (by omega)
  have had := addDays_valid_dfc i (gridStart y m (getDay ⟨y, m, 1⟩)) hgv
  have hgs := dfc_gridStart y m (getDay ⟨y, m, 1⟩) hy hm1 hm2 (by omega)
  refine ⟨?_, ?_, ?_, ?_, rfl, rfl⟩
  · simp only [mkCalendarCell, beq_iff_eq]
    constructor
    · intro hmon
      exact ⟨month_eq_imp_year y m _ hy hm1 hm2 had.1 hmon (by omega) (by omega), hmon⟩
    · exact fun h => h.2
  · simp only [mkCalendarCell, beq_iff_eq]
    constructor
    · intro hb
      exact dfc_inj had.1 ht hb
    · intro hb
      rw [hb]
  · simp only [mkCalendarCell, decide_eq_true_eq]
    exact dfc_lt_iff had.1 ht
  · simp only [mkCalendarCell, beq_iff_eq]

/-- Witness for C5: the July 2025 grid. -/
theorem generateCalendarDays_grid_witness :
    ∃ start : CDate,
      (generateCalendarDays 2025 7 ⟨2025, 7, 22⟩ "2025-07-22").length = 42 ∧
      (∀ i, ∀ hi : i < (generateCalendarDays 2025 7 ⟨2025, 7, 22⟩ "2025-07-22").length,
          ((generateCalendarDays 2025 7 ⟨2025, 7, 22⟩ "2025-07-22").get ⟨i, hi⟩).date
            = addDays i start) ∧
      (∀ i, i ≤ 41 → validDate (addDays i start) ∧ dfc (addDays i start) = dfc start + i) ∧
      getDay start = 0 ∧
      dfc start + getDay ⟨2025, 7, 1⟩ = dfc ⟨2025, 7, 1⟩ :=
  generateCalendarDays_grid 2025 7 ⟨2025, 7, 22⟩ "2025-07-22" (by norm_num) (by norm_num)
    (by norm_num)

/-- Witness for C6: cell 0 of the July 2025 grid (today 2025-07-22),
an overflow day of June, gets correctly classified flags. -/
theorem generateCalendarDays_flags_witness :
    ((exJulyCell.isCurrentMonth = true) ↔
      (exJulyCell.date.year = 2025 ∧ exJulyCell.date.month = 7)) ∧
    ((exJulyCell.isToday = true) ↔ exJulyCell.date = ⟨2025, 7, 22⟩) ∧
    ((exJulyCell.isPast = true) ↔ cdLt exJulyCell.date ⟨2025, 7, 22⟩) ∧
    ((exJulyCell.isSelected = true) ↔ exJulyCell.dateString = "2025-07-22") ∧
    exJulyCell.dateString = toDateString exJulyCell.date ∧
    exJulyCell.day = exJulyCell.date.day :=
  generateCalendarDays_flags 2025 7 ⟨2025, 7, 22⟩ "2025-07-22" (by norm_num) (by norm_num)
    (by norm_num) (by decide) exJulyCell (by decide)

end StockTake
